import Mathlib

/-!
A shallow embedding of the PyWand dependency-resolution and environment-
provisioning pipeline (src/main.rs, src/uv_tools.rs), together with proofs
of the specified properties of its core functions: standard-library
filtering, package-name normalization, import extraction, source scanning,
manifest generation, and the uv tool acquisition state machine.
-/

namespace PyWand

/-- The fixed standard-library table from `is_standard_library` in
`src/main.rs` (the `std_libs` vector). -/
def std_libs : List String :=
  ["os", "sys", "re", "math", "json", "time", "datetime", "random",
   "collections", "itertools", "functools", "pathlib", "subprocess",
   "typing", "abc", "argparse", "enum", "logging", "io", "csv",
   "__future__", "site", "threading", "importlib", "runpy",
   "asyncio", "base64", "calendar", "contextlib", "copy", "dataclasses",
   "decimal", "difflib", "email", "hashlib", "html", "http", "inspect",
   "ipaddress", "multiprocessing", "operator", "platform", "pprint",
   "queue", "shutil", "signal", "socket", "sqlite3", "ssl", "statistics",
   "string", "struct", "tempfile", "textwrap", "unittest", "urllib",
   "uuid", "warnings", "xml", "zipfile", "zlib", "builtins", "codecs",
   "traceback", "pickle", "gzip", "array", "bisect", "configparser",
   "context", "ctypes", "distutils", "fnmatch", "fractions", "ftplib",
   "getpass", "gettext", "glob", "heapq", "imp", "keyword", "marshal",
   "mimetypes", "numbers", "optparse", "posixpath", "profile", "pwd",
   "shelve", "smtplib", "symtable", "sysconfig", "tarfile", "telnetlib",
   "token", "turtle", "uu", "weakref", "winreg"]

/-- `is_standard_library` from `src/main.rs`: membership in the fixed
standard-library table. -/
def is_standard_library (module : String) : Bool :=
  std_libs.contains module

/-- The fixed alias table `package_mappings` from `normalize_package_name`
in `src/main.rs` (module import name, published package name). -/
def package_mappings : List (String × String) :=
  [("yaml", "PyYAML"),
   ("PIL", "Pillow"),
   ("bs4", "beautifulsoup4"),
   ("sklearn", "scikit-learn")]

/-- The fixed known-false-positive token list from `normalize_package_name`
in `src/main.rs`. -/
def false_positive_tokens : List String :=
  ["name", "the", "header", "REPL", "code", "types", "stat", "line", "inline",
   "another", "all", "values", "its", "regular", "each", "within", "working",
   "source", "on", "what", "an", "multiple", "being", "that", "this", "inside",
   "one", "floats", "those", "limited_api1", "limited_api_latest", "limited_api2",
   "array_interface_testing", "mem_policy", "checks", "1", "0", "left", "lowest",
   "pairs", "t2", "it", "outside", "running"]

/-- The `for (mod_name, pkg_name) in &package_mappings` loop with early
return from `normalize_package_name` in `src/main.rs`. -/
def lookupMapping : List (String × String) → String → Option String
  | [], _ => none
  | (modName, pkgName) :: rest, module =>
    if module == modName then some pkgName else lookupMapping rest module

/-- Rust's `starts_with('_')`: the first character is an underscore. -/
def startsWithUnderscore (module : String) : Bool :=
  module.data.head? == some '_'

/-- `normalize_package_name` from `src/main.rs`: first the alias-table loop,
then the rejection filter (length at most 1, leading underscore, standard
library, false-positive token), then the module name unchanged.  String
length models Rust's `len()` (they agree on the ASCII names involved). -/
def normalize_package_name (module : String) : Option String :=
  match lookupMapping package_mappings module with
  | some pkgName => some pkgName
  | none =>
    if decide (module.length ≤ 1) || startsWithUnderscore module ||
       is_standard_library module || false_positive_tokens.contains module then
      none
    else
      some module

/-- Modelled from the spec (section 4.3 Name Normalizer), for comparison
with `normalize_package_name`: step 1 consults the alias table as a key
lookup; step 2 rejects when the length is at most 1, the name starts with
an underscore, the name is in the standard-library table, or the name is in
the false-positive list; step 3 returns the name unchanged. -/
def normalize_spec (name : String) : Option String :=
  match package_mappings.find? (fun kv => kv.1 == name) with
  | some kv => some kv.2
  | none =>
    if name.length ≤ 1 ∨ startsWithUnderscore name = true ∨
       is_standard_library name = true ∨ name ∈ false_positive_tokens then
      none
    else
      some name

/-! Import extraction (`extract_dependencies` in `src/main.rs`).

The import regex `(?m)^\s*(?:import|from)\s+([a-zA-Z0-9_]+)` is embedded as
an executable scanner: a match attempt is made at every line-start position
(`(?m)^`), skipping whitespace (which, as in the regex, may span newlines),
then one of the literal keywords, then at least one whitespace character,
then a maximal nonempty run of `[a-zA-Z0-9_]` which is the captured module
name; matches are non-overlapping and scanning resumes after each match,
exactly as `Regex::captures_iter` does.  `\s` is modelled by its ASCII
subset, which covers every whitespace character the claims involve. -/

/-- ASCII whitespace, the model of the regex class `\s`. -/
def isWsChar (c : Char) : Bool :=
  c == ' ' || c == '\t' || c == '\n' || c == '\r' || c == '\x0b' || c == '\x0c'

/-- The regex character class `[a-zA-Z0-9_]`. -/
def isIdentChar (c : Char) : Bool :=
  c.isAlpha || c.isDigit || c == '_'

/-- One attempt to match `\s*(?:import|from)\s+([a-zA-Z0-9_]+)` at a
line-start position; on success returns the captured module name and the
suffix following the match. -/
def tryMatch (cs : List Char) : Option (String × List Char) :=
  let cs1 := cs.dropWhile isWsChar
  let afterKw : Option (List Char) :=
    if cs1.take 6 = "import".data then some (cs1.drop 6)
    else if cs1.take 4 = "from".data then some (cs1.drop 4)
    else none
  match afterKw with
  | none => none
  | some cs2 =>
    match cs2 with
    | [] => none
    | c :: _ =>
      if isWsChar c then
        let cs3 := cs2.dropWhile isWsChar
        let ident := cs3.takeWhile isIdentChar
        if ident.isEmpty then none
        else some (String.mk ident, cs3.drop ident.length)
      else none

/-- Scan the text left to right, attempting a match at each line-start
position and resuming after the end of each match.  The fuel argument is an
upper bound on the number of steps; every step consumes at least one
character, so `length + 1` fuel is never exhausted. -/
def scanAux : Nat → List Char → Bool → List String
  | 0, _, _ => []
  | _ + 1, [], _ => []
  | fuel + 1, c :: rest, atLineStart =>
    if atLineStart then
      match tryMatch (c :: rest) with
      | some (name, rest2) => name :: scanAux fuel rest2 false
      | none => scanAux fuel rest (c == '\n')
    else
      scanAux fuel rest (c == '\n')

/-- All module names captured by the import regex in one file's text, in
order of occurrence (`import_re.captures_iter` in `extract_dependencies`). -/
def captures (s : String) : List String :=
  scanAux (s.data.length + 1) s.data true

/-- The loop body of `extract_dependencies` in `src/main.rs`: push a
captured module unless it is already present or is a standard-library name. -/
def insertDep (deps : List String) (m : String) : List String :=
  if !deps.contains m && !is_standard_library m then deps ++ [m] else deps

/-- `extract_dependencies` from `src/main.rs`, over the readable files'
contents: fold the captured module names of every file, in file order, into
one running deduplicated insertion-ordered list, dropping standard-library
names. -/
def extract_dependencies (files : List String) : List String :=
  files.foldl (fun deps content => (captures content).foldl insertDep deps) []

/-- First-occurrence insertion used by the reference formulation of
deduplication: keep a name only if it is not already present. -/
def insertFirst (deps : List String) (m : String) : List String :=
  if deps.contains m then deps else deps ++ [m]

/-- First-occurrence deduplication of a list, preserving insertion order. -/
def dedupFirst (l : List String) : List String := l.foldl insertFirst []

/-! Manifest generation (`generate_requirements_file` in `src/main.rs`). -/

/-- The manifest lines: each extracted dependency that survives
`normalize_package_name`, in insertion order. -/
def manifestLines (deps : List String) : List String :=
  deps.filterMap normalize_package_name

/-- The `content` string built by `generate_requirements_file`: for each
dependency in order, if normalization succeeds, append the normalized name
followed by a newline. -/
def manifestContent (deps : List String) : String :=
  deps.foldl (fun content dep =>
    match normalize_package_name dep with
    | some normalizedDep => content ++ normalizedDep ++ "\n"
    | none => content) ""

/-- Rust's `target_dir.trim_end_matches('/')`: remove every trailing slash. -/
def trimEndSlashes (s : String) : String :=
  String.mk ((s.data.reverse.dropWhile (fun c => c == '/')).reverse)

/-- The manifest path `format!("{}/requirements.txt", target_dir.trim_end_matches('/'))`. -/
def requirements_path (targetDir : String) : String :=
  trimEndSlashes targetDir ++ "/requirements.txt"

/-- A filesystem modelled as an association list from paths to file
contents. -/
abbrev FileSys := List (String × String)

/-- `fs::write`: create or truncate the file at `path`, leaving every other
path unchanged. -/
def fsWrite (fs : FileSys) (path content : String) : FileSys :=
  (path, content) :: fs.filter (fun pc => pc.1 != path)

/-- Read the content of the file at `path`, if it exists. -/
def fsRead (fs : FileSys) (path : String) : Option String :=
  (fs.find? (fun pc => pc.1 == path)).map (fun pc => pc.2)

/-- `generate_requirements_file` from `src/main.rs`: build the content from
the dependency list and write it with `fs::write` to
`<targetDir>/requirements.txt`. -/
def generate_requirements_file (deps : List String) (targetDir : String)
    (fs : FileSys) : FileSys :=
  fsWrite fs (requirements_path targetDir) (manifestContent deps)

/-! Source scanning (`find_python_files` in `src/main.rs`). -/

/-- A directory tree: an entry is a file or a directory with an ordered
list of children. -/
inductive FsTree where
  | file (name : String)
  | dir (name : String) (children : List FsTree)

/-- The fixed `excluded_dirs` array from `find_python_files`. -/
def excluded_dirs : List String :=
  [".git", ".venv", "venv", "env", "__pycache__", "node_modules",
   ".idea", ".vscode", "dist", "build", "target", ".pytest_cache"]

/-- The `WalkDir::new(dir).max_depth(10).filter_entry(..)` iteration: every
entry is yielded as its path (the list of names from the root); a directory
whose name is in `excluded_dirs` is skipped together with its whole
subtree; entries deeper than the depth budget are not yielded.  The
traversal yields a directory before its contents, in child order. -/
def walkEntries : Nat → FsTree → List (List String)
  | _, .file n => [[n]]
  | 0, .dir n _ => if excluded_dirs.contains n then [] else [[n]]
  | d + 1, .dir n children =>
    if excluded_dirs.contains n then []
    else
      [n] :: children.flatMap (fun c => (walkEntries d c).map (fun p => n :: p))

/-- Rust's `Path::extension` on a single path component: the part after the
last dot, unless there is no dot or the only dot is a leading one. -/
def extOf (name : String) : Option String :=
  let cs := name.data
  let rext := cs.reverse.takeWhile (fun c => c != '.')
  if rext.length = cs.length then none
  else if rext.length + 1 = cs.length then none
  else some (String.mk rext.reverse)

/-- `find_python_files` from `src/main.rs`: walk with depth limit 10 and
directory-name exclusion, then keep exactly the entries whose path
extension is `py` (the filter inspects only the extension, not the entry's
file type). -/
def find_python_files (root : FsTree) : List (List String) :=
  (walkEntries 10 root).filter (fun p =>
    match p.getLast? with
    | some n => extOf n == some "py"
    | none => false)

/-! Tool acquisition (`src/uv_tools.rs`) and the top-level bootstrap
(`ensure_uv_available` in `src/main.rs`).  Platform facts (the result of
the `which`/`where` lookup, the embedded resource table entry for the
current `<os>-<arch>` key, and whether the network installer script leaves
a binary behind) are inputs to the model. -/

/-- Where a usable uv binary came from. -/
inductive Provenance where
  | system
  | embedded
  | downloaded
deriving DecidableEq

/-- The outcome of one provisioning call: the result (path and provenance
or an error), the resulting filesystem, the list of paths this program
itself wrote, and whether the network path was invoked. -/
structure ProvisionOutcome where
  result : Except String (String × Provenance)
  fs : FileSys
  writes : List String
  networkUsed : Bool

/-- The cached binary path `get_app_dir()/bin/uv` used by
`extract_embedded_uv` and `download_uv` in `src/uv_tools.rs`. -/
def cache_bin_uv : String := "home/.pywand/bin/uv"

/-- The installer script path `get_app_dir()/uv-installer.sh` written by
`download_uv`. -/
def installer_script : String := "home/.pywand/uv-installer.sh"

/-- The project-local bootstrap cache path `.pywand/uv` used by
`ensure_uv_available` in `src/main.rs`. -/
def bootstrap_uv_path : String := ".pywand/uv"

/-- `find_system_uv` from `src/uv_tools.rs`: the `which`/`where` lookup,
abstracted over its outcome. -/
def find_system_uv (systemUv : Option String) : Except String String :=
  match systemUv with
  | some p => Except.ok p
  | none => Except.error "系统中未找到UV"

/-- `download_uv` from `src/uv_tools.rs`: write the installer script, run
it (a network step; the binary appears at the cache path exactly when the
installer succeeds), then fail if the binary still does not exist. -/
def download_uv (downloadOk : Bool) (fs : FileSys) : ProvisionOutcome :=
  let fs1 := fsWrite fs installer_script "uv-installer"
  if downloadOk then
    { result := Except.ok (cache_bin_uv, Provenance.downloaded),
      fs := fsWrite fs1 cache_bin_uv "uv-binary-downloaded",
      writes := [installer_script],
      networkUsed := true }
  else
    { result := Except.error "UV安装失败，无法找到二进制文件",
      fs := fs1,
      writes := [installer_script],
      networkUsed := true }

/-- `extract_embedded_uv` from `src/uv_tools.rs`: if the embedded resource
table has an entry for the current platform, write its bytes to the cache
path (unconditionally — no existence check) and return; otherwise fall back
to the network download. -/
def extract_embedded_uv (embedded : Option String) (downloadOk : Bool)
    (fs : FileSys) : ProvisionOutcome :=
  match embedded with
  | some uvData =>
    { result := Except.ok (cache_bin_uv, Provenance.embedded),
      fs := fsWrite fs cache_bin_uv uvData,
      writes := [cache_bin_uv],
      networkUsed := false }
  | none => download_uv downloadOk fs

/-- `ensure_available` from `src/uv_tools.rs`: first the system lookup;
on failure, the embedded extraction, which itself falls back to the network
download. -/
def ensure_available (systemUv : Option String) (embedded : Option String)
    (downloadOk : Bool) (fs : FileSys) : ProvisionOutcome :=
  match find_system_uv systemUv with
  | Except.ok p =>
    { result := Except.ok (p, Provenance.system),
      fs := fs, writes := [], networkUsed := false }
  | Except.error _ => extract_embedded_uv embedded downloadOk fs

/-- `ensure_uv_available` from `src/main.rs` (the top-level bootstrap):
if `.pywand/uv` already exists, do nothing; otherwise copy the platform's
embedded resource there, or fail when no resource matches the platform.
Returns the new filesystem and the list of paths written. -/
def ensure_uv_available (fs : FileSys) (resource : Option String) :
    Except String (FileSys × List String) :=
  if (fsRead fs bootstrap_uv_path).isSome then Except.ok (fs, [])
  else
    match resource with
    | some uvData =>
      Except.ok (fsWrite fs bootstrap_uv_path uvData, [bootstrap_uv_path])
    | none => Except.error "找不到适用于当前平台的uv工具"

/-! Environment provisioning (`run_command`, `create_venv` in
`src/uv_tools.rs`).  A child process exit status is `some code` or `none`
for termination by signal; `status.success()` is `some 0`. -/

/-- `run_command` from `src/uv_tools.rs`, abstracted over the child's exit
status: without an initialized binary path it fails; on a non-success exit
status it fails with the fixed message `UV命令执行失败` (the `bail!` call),
which records nothing about the numeric exit code. -/
def run_command (binPath : Option String) (exitStatus : Option Int) :
    Except String Unit :=
  match binPath with
  | none => Except.error "UV未初始化"
  | some _ =>
    if exitStatus == some 0 then Except.ok ()
    else Except.error "UV命令执行失败"

/-- `create_venv` from `src/uv_tools.rs`: invoke the tool's `venv`
subcommand through `run_command`; the outcome is `run_command`'s outcome on
that invocation's exit status. -/
def create_venv (binPath : Option String) (_venvDir : String)
    (_pythonVersion : String) (exitStatus : Option Int) : Except String Unit :=
  run_command binPath exitStatus

lemma lookupMapping_eq_find (l : List (String × String)) (m : String) :
    lookupMapping l m = (l.find? (fun kv => kv.1 == m)).map (fun kv => kv.2) := by
  induction l with
  | nil => rfl
  | cons kv rest ih =>
    obtain ⟨k, v⟩ := kv
    by_cases h : m = k
    · subst h
      simp [lookupMapping, List.find?]
    · have h1 : (m == k) = false := by simp [h]
      have h2 : (k == m) = false := by simp [Ne.symm h]
      simp [lookupMapping, List.find?, h1, h2, ih]

/-- C4: `normalize_package_name` agrees with the three-step reference
definition from the spec on every input (and is total and deterministic
because it is a Lean function); in particular the alias cases yaml,
bs4 and sklearn produce the published names. -/
theorem C4_normalize_reference_equiv :
    (∀ s : String, normalize_package_name s = normalize_spec s) ∧
    normalize_package_name "yaml" = some "PyYAML" ∧
    normalize_package_name "bs4" = some "beautifulsoup4" ∧
    normalize_package_name "sklearn" = some "scikit-learn" := by
  refine ⟨fun s => ?_, by decide, by decide, by decide⟩
  unfold normalize_package_name normalize_spec
  rw [lookupMapping_eq_find]
  cases h : package_mappings.find? (fun kv => kv.1 == s) with
  | some kv => rfl
  | none =>
    simp only [Option.map_none']
    by_cases hc : s.length ≤ 1 ∨ startsWithUnderscore s = true ∨
        is_standard_library s = true ∨ s ∈ false_positive_tokens
    · rw [if_pos hc]
      have : (decide (s.length ≤ 1) || startsWithUnderscore s ||
          is_standard_library s || false_positive_tokens.contains s) = true := by
        rcases hc with h1 | h2 | h3 | h4
        · simp [h1]
        · simp [h2]
        · simp [h3]
        · simp [List.contains, List.elem_iff, h4]
      rw [this]
      rfl
    · rw [if_neg hc]
      push_neg at hc
      obtain ⟨h1, h2, h3, h4⟩ := hc
      have : (decide (s.length ≤ 1) || startsWithUnderscore s ||
          is_standard_library s || false_positive_tokens.contains s) = false := by
        simp only [Bool.or_eq_false_iff]
        refine ⟨⟨⟨by simpa using h1, by simpa using h2⟩, by simpa using h3⟩, ?_⟩
        simpa [List.contains, List.elem_iff] using h4
      rw [this]
      rfl

lemma foldl_insertDep_eq_filter (ms : List String) (acc : List String) :
    ms.foldl insertDep acc
      = (ms.filter (fun m => !is_standard_library m)).foldl insertFirst acc := by
  induction ms generalizing acc with
  | nil => rfl
  | cons m ms ih =>
    by_cases h : is_standard_library m = true
    · have h1 : insertDep acc m = acc := by simp [insertDep, h]
      simp [List.foldl_cons, List.filter_cons, h, h1, ih]
    · have hb : is_standard_library m = false := by simpa using h
      have h1 : insertDep acc m = insertFirst acc m := by
        cases hc : acc.contains m <;> simp [insertDep, insertFirst, hb, hc]
      simp [List.foldl_cons, List.filter_cons, hb, h1, ih]

lemma foldl_files_eq_flatMap (files : List String) (acc : List String) :
    files.foldl (fun deps content => (captures content).foldl insertDep deps) acc
      = (files.flatMap captures).foldl insertDep acc := by
  induction files generalizing acc with
  | nil => rfl
  | cons f fs ih => simp [List.flatMap_cons, List.foldl_append, ih]

lemma extract_eq_dedupFirst (files : List String) :
    extract_dependencies files
      = dedupFirst ((files.flatMap captures).filter (fun m => !is_standard_library m)) := by
  unfold extract_dependencies dedupFirst
  rw [foldl_files_eq_flatMap, foldl_insertDep_eq_filter]

lemma foldl_insertFirst_nodup (l : List String) (acc : List String)
    (h : acc.Nodup) : (l.foldl insertFirst acc).Nodup := by
  induction l generalizing acc with
  | nil => exact h
  | cons m ms ih =>
    rw [List.foldl_cons]
    apply ih
    by_cases hc : acc.contains m = true
    · have h1 : insertFirst acc m = acc := by unfold insertFirst; rw [hc]; simp
      rw [h1]; exact h
    · have hcf : acc.contains m = false := by simpa using hc
      have hm : m ∉ acc := by simpa [List.contains, List.elem_iff] using hc
      have h1 : insertFirst acc m = acc ++ [m] := by
        unfold insertFirst; rw [hcf]; simp
      rw [h1]
      refine List.nodup_append.mpr ⟨h, List.nodup_singleton m, ?_⟩
      intro a ha hma
      exact hm ((List.mem_singleton.mp hma) ▸ ha)

lemma normalize_some_not_noise (d l : String)
    (h : normalize_package_name d = some l) :
    is_standard_library l = false ∧ false_positive_tokens.contains l = false := by
  unfold normalize_package_name at h
  cases hm : lookupMapping package_mappings d with
  | some pkg =>
    rw [hm] at h
    have hl : pkg = l := Option.some.inj h
    have hpkg : pkg = "PyYAML" ∨ pkg = "Pillow" ∨ pkg = "beautifulsoup4" ∨
        pkg = "scikit-learn" := by
      simp only [package_mappings, lookupMapping] at hm
      split at hm
      · exact Or.inl (Option.some.inj hm).symm
      · split at hm
        · exact Or.inr (Or.inl (Option.some.inj hm).symm)
        · split at hm
          · exact Or.inr (Or.inr (Or.inl (Option.some.inj hm).symm))
          · split at hm
            · exact Or.inr (Or.inr (Or.inr (Option.some.inj hm).symm))
            · exact absurd hm (by simp [lookupMapping])
    rcases hpkg with rfl | rfl | rfl | rfl <;> rw [← hl] <;> decide
  | none =>
    rw [hm] at h
    cases hcond : (decide (d.length ≤ 1) || startsWithUnderscore d ||
        is_standard_library d || false_positive_tokens.contains d) with
    | true => rw [hcond] at h; simp at h
    | false =>
      rw [hcond] at h
      simp only [if_neg Bool.false_ne_true, Option.some.injEq] at h
      subst h
      simp only [Bool.or_eq_false_iff] at hcond
      exact ⟨hcond.1.2, hcond.2⟩

/-- C5: import extraction over a batch of readable files equals the
first-occurrence deduplication of the standard-library-free capture stream
of the import regex across all files, in insertion order; the concrete
two-file example yields `requests` then `numpy`. -/
theorem C5_extract_dedup_order :
    (∀ files : List String,
      extract_dependencies files
        = dedupFirst ((files.flatMap captures).filter
            (fun m => !is_standard_library m))) ∧
    extract_dependencies ["import requests\n", "import requests\nimport numpy\n"]
      = ["requests", "numpy"] :=
  ⟨extract_eq_dedupFirst, by decide⟩

/-- C1 counterexample: the claim fails on the code.  The two raw imports
`yaml` and `PyYAML` are distinct, neither standard library nor noise, and
both normalize to the published name `PyYAML`; the serialized dependency
set therefore contains a duplicate. -/
theorem C1_counterexample :
    manifestLines (extract_dependencies ["import yaml\nimport PyYAML\n"])
      = ["PyYAML", "PyYAML"] ∧
    ¬ (manifestLines (extract_dependencies ["import yaml\nimport PyYAML\n"])).Nodup := by
  exact ⟨by decide, by decide⟩

/-- C1 amended: the serialized dependency set contains no standard-library
names and no names from the noise list, and the raw extracted module list
contains no duplicates; however, when two distinct raw module names
normalize to the same published package name the serialized manifest may
contain that package name twice (see the counterexample). -/
theorem C1_amended_manifest_invariant (files : List String) :
    (extract_dependencies files).Nodup ∧
    ∀ l ∈ manifestLines (extract_dependencies files),
      is_standard_library l = false ∧ false_positive_tokens.contains l = false := by
  constructor
  · rw [extract_eq_dedupFirst]
    exact foldl_insertFirst_nodup _ _ List.nodup_nil
  · intro l hl
    rcases List.mem_filterMap.mp hl with ⟨d, _, hd⟩
    exact normalize_some_not_noise d l hd

/-- C1 witness: the amended invariant applied to a concrete batch. -/
theorem C1_witness :
    ("requests" ∈ manifestLines (extract_dependencies ["import requests\n"])) ∧
    is_standard_library "requests" = false ∧
    false_positive_tokens.contains "requests" = false :=
  ⟨by decide,
   (C1_amended_manifest_invariant ["import requests\n"]).2 "requests" (by decide)⟩

lemma manifestContent_aux (deps : List String) (acc : String) :
    deps.foldl (fun content dep =>
      match normalize_package_name dep with
      | some normalizedDep => content ++ normalizedDep ++ "\n"
      | none => content) acc
    = acc ++ (manifestLines deps).foldr (fun l r => l ++ "\n" ++ r) "" := by
  induction deps generalizing acc with
  | nil => simp [manifestLines]
  | cons d ds ih =>
    rw [List.foldl_cons]
    cases hn : normalize_package_name d with
    | none =>
      simp only [hn]
      rw [ih]
      simp [manifestLines, List.filterMap_cons, hn]
    | some n =>
      simp only [hn]
      rw [ih]
      simp [manifestLines, List.filterMap_cons, hn, String.append_assoc]

lemma manifestContent_eq (deps : List String) :
    manifestContent deps
      = (manifestLines deps).foldr (fun l r => l ++ "\n" ++ r) "" := by
  unfold manifestContent
  rw [manifestContent_aux]
  simp

lemma fsRead_fsWrite (fs : FileSys) (p c : String) :
    fsRead (fsWrite fs p c) p = some c := by
  simp [fsRead, fsWrite, List.find?]

lemma trimEndSlashes_of_getLast (s : String)
    (h : s.data.getLast? ≠ some '/') : trimEndSlashes s = s := by
  have hd : s.data.reverse.dropWhile (fun c => c == '/') = s.data.reverse := by
    cases hr : s.data.reverse with
    | nil => rfl
    | cons c cs =>
      have hc : s.data.getLast? = some c := by
        rw [← List.head?_reverse, hr]
        rfl
      have hcf : (c == '/') = false := by
        rcases Bool.eq_false_or_eq_true (c == '/') with ht | hf
        · exact absurd (by rw [hc, eq_of_beq ht]) h
        · exact hf
      rw [List.dropWhile_cons, hcf]
      simp
  unfold trimEndSlashes
  rw [hd, List.reverse_reverse]

lemma requirements_path_no_slash (targetDir : String)
    (h : targetDir.data.getLast? ≠ some '/') :
    requirements_path targetDir = targetDir ++ "/requirements.txt" := by
  unfold requirements_path
  rw [trimEndSlashes_of_getLast targetDir h]

/-- C8: for every dependency set, target directory and prior filesystem
state, `generate_requirements_file` leaves at `<targetDir>/requirements.txt`
exactly the surviving normalized package names, one per line in insertion
order with a newline terminating every line (including the last), with no
version pins appended; quantifying over every prior filesystem shows any
existing file at that path is overwritten unconditionally. -/
theorem C8_manifest_writer :
    (∀ (deps : List String) (targetDir : String) (fs : FileSys),
      fsRead (generate_requirements_file deps targetDir fs)
          (requirements_path targetDir) = some (manifestContent deps)) ∧
    (∀ deps : List String,
      manifestContent deps
        = (manifestLines deps).foldr (fun l r => l ++ "\n" ++ r) "") ∧
    (∀ targetDir : String, targetDir.data.getLast? ≠ some '/' →
      requirements_path targetDir = targetDir ++ "/requirements.txt") := by
  refine ⟨?_, manifestContent_eq, requirements_path_no_slash⟩
  intro deps targetDir fs
  unfold generate_requirements_file
  exact fsRead_fsWrite fs (requirements_path targetDir) (manifestContent deps)

/-- C8 witness: the manifest path at the concrete directory used by
`local_development_flow`. -/
theorem C8_witness :
    ("." : String).data.getLast? ≠ some '/' ∧
    requirements_path "." = "./requirements.txt" :=
  ⟨by decide, C8_manifest_writer.2.2 "." (by decide)⟩

/-- C10: when every candidate is rejected by normalization (in particular
when the dependency set is empty), the manifest writer still writes
`<targetDir>/requirements.txt`, producing an empty file and overwriting any
pre-existing file at that path (the statement holds for every prior
filesystem state). -/
theorem C10_empty_manifest_written (deps : List String) (targetDir : String)
    (fs : FileSys) (h : manifestLines deps = []) :
    fsRead (generate_requirements_file deps targetDir fs)
        (requirements_path targetDir) = some "" := by
  have hc : manifestContent deps = "" := by
    rw [manifestContent_eq, h]
    rfl
  unfold generate_requirements_file
  rw [fsRead_fsWrite, hc]

/-- C10 witness: three candidates, all rejected (underscore prefix, single
character, standard library), with a pre-existing manifest that gets
overwritten by an empty one. -/
theorem C10_witness :
    manifestLines ["_private", "a", "os"] = [] ∧
    fsRead (generate_requirements_file ["_private", "a", "os"] "."
        [("./requirements.txt", "old-content")]) "./requirements.txt"
      = some "" := by
  refine ⟨by decide, ?_⟩
  exact C10_empty_manifest_written ["_private", "a", "os"] "."
    [("./requirements.txt", "old-content")] (by decide)

/-- C2 counterexample: the claim fails on the code.  `run_command` (and so
`create_venv`) maps every non-zero exit status to the one fixed error
`UV命令执行失败`: the outcomes for exit codes 2 and 3 are identical, so the
error cannot carry (preserve or report) the numeric exit code. -/
theorem C2_counterexample :
    run_command (some "/usr/bin/uv") (some 2)
        = run_command (some "/usr/bin/uv") (some 3) ∧
    run_command (some "/usr/bin/uv") (some 2) = Except.error "UV命令执行失败" ∧
    create_venv (some "/usr/bin/uv") ".venv" "3.10.11" (some 2)
        = create_venv (some "/usr/bin/uv") ".venv" "3.10.11" (some 3) :=
  ⟨rfl, rfl, rfl⟩

/-- C2 amended: a non-zero (or signal) exit status of the child process
makes `run_command` — and `create_venv`, which routes through it — fail via
`bail!` with the fixed message `UV命令执行失败`, which does not include the
numeric exit code. -/
theorem C2_amended_fixed_error (p : String) (st : Option Int)
    (h : st ≠ some 0) :
    run_command (some p) st = Except.error "UV命令执行失败" ∧
    create_venv (some p) ".venv" "3.12.1" st = Except.error "UV命令执行失败" := by
  have hb : (st == some 0) = false := by
    rcases Bool.eq_false_or_eq_true (st == some 0) with ht | hf
    · exact absurd (eq_of_beq ht) h
    · exact hf
  constructor
  · unfold run_command
    rw [hb]
    rfl
  · unfold create_venv run_command
    rw [hb]
    rfl

/-- C2 witness: the amended statement at the concrete exit code 2. -/
theorem C2_witness :
    (some 2 : Option Int) ≠ some 0 ∧
    run_command (some "uv") (some 2) = Except.error "UV命令执行失败" :=
  ⟨by decide, (C2_amended_fixed_error "uv" (some 2) (by decide)).1⟩

/-- C3 counterexample: the claim fails on the code.  After a first pipeline
invocation whose acquisition used strategy 2, the cached binary exists at
the expected path, yet the second invocation's embedded-extraction step
writes it again: `extract_embedded_uv` performs no existence check, so the
second run's write is redundant. -/
theorem C3_counterexample :
    (fsRead (ensure_available none (some "uv-bytes") false []).fs
        cache_bin_uv).isSome = true ∧
    (ensure_available none (some "uv-bytes") false
        ((ensure_available none (some "uv-bytes") false []).fs)).writes
      = [cache_bin_uv] :=
  ⟨by decide, by decide⟩

/-- C3 amended: the existence check lives in the top-level orchestrator's
bootstrap (`ensure_uv_available` in `src/main.rs`), which skips its copy
and performs no write when `.pywand/uv` already exists; the Tool
Provisioner's strategy 2 (`extract_embedded_uv` in `src/uv_tools.rs`)
checks nothing and rewrites the cached binary on every invocation. -/
theorem C3_amended_idempotence (fs : FileSys) (resource : Option String)
    (h : (fsRead fs bootstrap_uv_path).isSome = true) :
    ensure_uv_available fs resource = Except.ok (fs, []) ∧
    ∀ (uvData : String) (downloadOk : Bool) (fs2 : FileSys),
      (extract_embedded_uv (some uvData) downloadOk fs2).writes
        = [cache_bin_uv] := by
  constructor
  · unfold ensure_uv_available
    rw [h]
    rfl
  · intro uvData downloadOk fs2
    rfl

/-- C3 witness: the amended statement at a concrete filesystem that already
holds the bootstrap binary. -/
theorem C3_witness :
    (fsRead [(bootstrap_uv_path, "cached-uv")] bootstrap_uv_path).isSome = true ∧
    ensure_uv_available [(bootstrap_uv_path, "cached-uv")] (some "resource-uv")
      = Except.ok ([(bootstrap_uv_path, "cached-uv")], []) :=
  ⟨by decide,
   (C3_amended_idempotence [(bootstrap_uv_path, "cached-uv")]
      (some "resource-uv") (by decide)).1⟩

/-- C6: within one `ensure_available` call the three strategies run in
order with first-success short-circuit: a successful system lookup returns
immediately with no write and no network use; when the system lookup fails
and an embedded binary exists for the platform, the embedded binary is used
and the network path is never invoked; when both fail the network strategy
runs, and if it also fails the call ends in a terminal error — there is no
fourth fallback. -/
theorem C6_fallback_ordering (systemUv embedded : Option String)
    (downloadOk : Bool) (fs : FileSys) :
    (∀ p, systemUv = some p →
      ensure_available systemUv embedded downloadOk fs
        = { result := Except.ok (p, Provenance.system), fs := fs,
            writes := [], networkUsed := false }) ∧
    (systemUv = none → ∀ b, embedded = some b →
      (ensure_available systemUv embedded downloadOk fs).result
          = Except.ok (cache_bin_uv, Provenance.embedded) ∧
      (ensure_available systemUv embedded downloadOk fs).networkUsed = false) ∧
    (systemUv = none → embedded = none →
      (ensure_available systemUv embedded downloadOk fs).networkUsed = true ∧
      (downloadOk = false →
        ensure_available systemUv embedded downloadOk fs
          = { result := Except.error "UV安装失败，无法找到二进制文件",
              fs := fsWrite fs installer_script "uv-installer",
              writes := [installer_script], networkUsed := true })) := by
  refine ⟨?_, ?_, ?_⟩
  · rintro p rfl
    rfl
  · rintro rfl b rfl
    exact ⟨rfl, rfl⟩
  · rintro rfl rfl
    constructor
    · cases downloadOk <;> rfl
    · rintro rfl
      rfl

/-- C6 witness: system lookup failed, embedded binary present — embedded
provenance, no network. -/
theorem C6_witness :
    (ensure_available none (some "uv-embedded-bytes") false []).result
        = Except.ok (cache_bin_uv, Provenance.embedded) ∧
    (ensure_available none (some "uv-embedded-bytes") false []).networkUsed
        = false :=
  (C6_fallback_ordering none (some "uv-embedded-bytes") false []).2.1
    rfl "uv-embedded-bytes" rfl

lemma walk_ne_nil (d : Nat) (t : FsTree) (p : List String)
    (hp : p ∈ walkEntries d t) : p ≠ [] := by
  cases d with
  | zero =>
    cases t with
    | file n =>
      simp only [walkEntries, List.mem_singleton] at hp
      subst hp
      simp
    | dir n children =>
      by_cases he : excluded_dirs.contains n = true
      · have he2 : n ∈ excluded_dirs := by
          simpa [List.contains, List.elem_iff] using he
        simp [walkEntries, he2] at hp
      · have hef : excluded_dirs.contains n = false := by simpa using he
        simp only [walkEntries, hef] at hp
        simp only [Bool.false_eq_true, if_false, List.mem_singleton] at hp
        subst hp
        simp
  | succ d =>
    cases t with
    | file n =>
      simp only [walkEntries, List.mem_singleton] at hp
      subst hp
      simp
    | dir n children =>
      by_cases he : excluded_dirs.contains n = true
      · have he2 : n ∈ excluded_dirs := by
          simpa [List.contains, List.elem_iff] using he
        simp [walkEntries, he2] at hp
      · have hef : excluded_dirs.contains n = false := by simpa using he
        simp only [walkEntries, hef, Bool.false_eq_true, if_false,
          List.mem_cons, List.mem_flatMap, List.mem_map] at hp
        rcases hp with rfl | ⟨child, _, q, _, rfl⟩
        · simp
        · simp

lemma walk_no_excluded (d : Nat) :
    ∀ (t : FsTree) (p : List String), p ∈ walkEntries d t →
      ∀ c ∈ p.dropLast, excluded_dirs.contains c = false := by
  induction d with
  | zero =>
    intro t p hp c hc
    cases t with
    | file n =>
      simp only [walkEntries, List.mem_singleton] at hp
      subst hp
      simp at hc
    | dir n children =>
      by_cases he : excluded_dirs.contains n = true
      · have he2 : n ∈ excluded_dirs := by
          simpa [List.contains, List.elem_iff] using he
        simp [walkEntries, he2] at hp
      · have hef : excluded_dirs.contains n = false := by simpa using he
        simp only [walkEntries, hef, Bool.false_eq_true, if_false,
          List.mem_singleton] at hp
        subst hp
        simp at hc
  | succ d ih =>
    intro t p hp c hc
    cases t with
    | file n =>
      simp only [walkEntries, List.mem_singleton] at hp
      subst hp
      simp at hc
    | dir n children =>
      by_cases he : excluded_dirs.contains n = true
      · have he2 : n ∈ excluded_dirs := by
          simpa [List.contains, List.elem_iff] using he
        simp [walkEntries, he2] at hp
      · have hef : excluded_dirs.contains n = false := by simpa using he
        simp only [walkEntries, hef, Bool.false_eq_true, if_false,
          List.mem_cons, List.mem_flatMap, List.mem_map] at hp
        rcases hp with rfl | ⟨child, hchild, q, hq, hpe⟩
        · simp at hc
        · subst hpe
          have hqne : q ≠ [] := walk_ne_nil d child q hq
          cases q with
          | nil => exact absurd rfl hqne
          | cons q0 qs =>
            simp only [List.dropLast, List.mem_cons] at hc
            rcases hc with rfl | hc2
            · exact hef
            · exact ih child (q0 :: qs) hq c (by simpa [List.dropLast] using hc2)

/-- C7: the scan never yields an entry whose path lies inside a directory
whose base name is in the fixed exclusion set: every ancestor component of
a yielded path avoids `excluded_dirs`, at any nesting depth, because a
matching directory is pruned together with its whole subtree. -/
theorem C7_no_excluded_ancestor (root : FsTree) (p : List String)
    (hp : p ∈ find_python_files root) :
    ∀ c ∈ p.dropLast, excluded_dirs.contains c = false := by
  have hw : p ∈ walkEntries 10 root := List.mem_of_mem_filter hp
  exact walk_no_excluded 10 root p hw

/-- C7 witness: a concrete scan with a nested tree, instantiated at the
ancestor component `proj`. -/
theorem C7_witness :
    (["proj", "m.py"] ∈ find_python_files
        (FsTree.dir "proj"
          [FsTree.dir ".git" [FsTree.file "hidden.py"], FsTree.file "m.py"]) ∧
      ("proj" : String) ∈ (["proj", "m.py"] : List String).dropLast) ∧
    excluded_dirs.contains "proj" = false :=
  ⟨⟨by decide, by decide⟩,
   C7_no_excluded_ancestor
     (FsTree.dir "proj"
       [FsTree.dir ".git" [FsTree.file "hidden.py"], FsTree.file "m.py"])
     ["proj", "m.py"] (by decide) "proj" (by decide)⟩

/-- C9: the acceptance filter of the scanner checks only the path
extension, never the entry's file type: in this concrete tree the entry
`data.py` is a directory, yet its path is included in the scanner's
output. -/
theorem C9_directory_named_py_included :
    find_python_files
        (FsTree.dir "proj" [FsTree.dir "data.py" [], FsTree.file "main.py"])
      = [["proj", "data.py"], ["proj", "main.py"]] := by
  decide

end PyWand
